import Mathlib

/-!
# Verification of the SDIM_logits rejection-evaluation protocol

Shallow embedding of the two evaluation pipelines of the repository:

* `src/eval_adv.py`   — `attack_run_rejection_policy` (adversarial pipeline);
* `src/eval_robustness.py` — `inference_rejection`, `get_c_dataset`
  (corruption pipeline).

Modelling conventions:

* Python floats (model scores, thresholds, rates) are idealised as
  rationals `ℚ`; all the properties verified here are order/counting
  properties that do not depend on rounding.
* The neural model is an external oracle (spec §6): an input is only
  ever used through the score vector the model assigns to it, so a
  sample is represented directly by its score vector `List ℚ`.
* A raised Python exception is modelled as `Except.error msg`; normal
  return values are `Except.ok`.
* `torch.argmax` / `torch.max(dim=1)` return the first maximal entry;
  `argmax` and `maxVal` below implement exactly that.
-/

namespace SDIM

/-- Equality of modelled Python outcomes (normal value or raised
exception) is decidable, so concrete runs can be checked by `decide`. -/
instance instDecEqExcept {ε α : Type} [DecidableEq ε] [DecidableEq α] :
    DecidableEq (Except ε α)
  | .ok a, .ok b =>
    if h : a = b then isTrue (congrArg Except.ok h)
    else isFalse (fun hc => h (Except.ok.inj hc))
  | .ok _, .error _ => isFalse (fun hc => Except.noConfusion hc)
  | .error _, .ok _ => isFalse (fun hc => Except.noConfusion hc)
  | .error e, .error f =>
    if h : e = f then isTrue (congrArg Except.error h)
    else isFalse (fun hc => h (Except.error.inj hc))

/-- torch `tensor.max(dim=1).values` for one score vector: the maximal
entry (first-occurrence semantics; 0 on the empty vector, which the
pipelines never produce). From `output.max(dim=1)` in `eval_adv.py`
line 128 and `log_lik.max(dim=1)` in `eval_robustness.py` line 121. -/
def maxVal : List ℚ → ℚ
  | [] => 0
  | [x] => x
  | x :: y :: t => max x (maxVal (y :: t))

/-- torch `tensor.argmax(dim=1)` for one score vector: index of the
first maximal entry (0 on the empty vector). From `ll.argmax(dim=1)`
(`eval_adv.py` line 71, `eval_robustness.py` line 84) and the index
part of `.max(dim=1)`. -/
def argmax : List ℚ → Nat
  | [] => 0
  | [_] => 0
  | x :: y :: t => if maxVal (y :: t) ≤ x then 0 else argmax (y :: t) + 1

/-- Python `int(p * n)` for a fraction `p` and a length `n`: truncation
toward zero of the exact product `p * n`. Computed on the unreduced
fraction `(p.num * n) / p.den` — `Int.tdiv` is exactly Python `int()`
truncation (the denominator is positive, so the value is the same).
`pyTruncMulNat_eq_floor` below identifies it with `⌊p * n⌋` for the
nonnegative percentiles the pipelines use. -/
def pyTruncMulNat (p : ℚ) (n : Nat) : Int := Int.tdiv (p.num * n) p.den

/-- Exact rational addition, computed on numerators and denominators
(`ratAdd_eq` identifies it with `+`). -/
def ratAdd (a b : ℚ) : ℚ := Rat.divInt (a.num * b.den + b.num * a.den) (a.den * b.den)

/-- Python list indexing `l[i]`: negative indices count from the end,
out-of-range access raises `IndexError`. -/
def pyListIndex (l : List ℚ) (i : Int) : Except String ℚ :=
  let j := if i < 0 then i + l.length else i
  if 0 ≤ j then
    match l.get? j.toNat with
    | some v => .ok v
    | none => .error "IndexError: list index out of range"
  else .error "IndexError: list index out of range"

/-- Python true division `a / b`: raises `ZeroDivisionError` on a zero
denominator (Python raises for float divisors as well). The quotient
is computed on numerators and denominators; `pyDiv_eq` identifies it
with the field division `a / b`. -/
def pyDiv (a b : ℚ) : Except String ℚ :=
  if b = 0 then .error "ZeroDivisionError: division by zero"
  else .ok (Rat.divInt (a.num * b.den) (a.den * b.num))

/-- Python `sorted(...)`: ascending sort. -/
def sortedScores (l : List ℚ) : List ℚ := l.insertionSort (· ≤ ·)

/-- One class's threshold from its collected score list:
`sorted(in_ll_list)[int(percentile * len(in_ll_list))]`
(`eval_adv.py` lines 76–79, `eval_robustness.py` lines 89–90). -/
def calibrate (p : ℚ) (l : List ℚ) : Except String ℚ :=
  pyListIndex (sortedScores l) (pyTruncMulNat p l.length)

/-- The score collection `in_ll_list` of class `c`: the dataset
provider already yields only the samples of true label `c`
(`get_dataset(..., label_id=label_id, ...)`), the loop keeps the
correctly classified ones (`correct_idx = ll.argmax(dim=1) == y`,
where every `y` equals `c`) and collects `ll_[:, label_id]`
(`eval_adv.py` lines 65–74, `eval_robustness.py` lines 78–87). -/
def classScores (c : Nat) (vecs : List (List ℚ)) : List ℚ :=
  (vecs.filter (fun v => argmax v == c)).map (fun v => v.getD c 0)

/-- Per-class threshold extraction composed with calibration. -/
def classThreshold (p : ℚ) (c : Nat) (vecs : List (List ℚ)) : Except String ℚ :=
  calibrate p (classScores c vecs)

/-- `values < thresholds[pred]` — the rejection test applied to one
score vector (`eval_robustness.py` line 123, `eval_adv.py` lines
133 and 136). `thresholds[pred]` is in range whenever the score and
threshold vectors both have length `n_classes`. -/
def isReject (T v : List ℚ) : Bool := decide (maxVal v < T.getD (argmax v) 0)

/-- `values >= thresholds[pred]` — the acceptance (confidence) test
(`eval_robustness.py` line 122). -/
def isConfident (T v : List ℚ) : Bool := decide (T.getD (argmax v) 0 ≤ maxVal v)

/-- Batch outcome counters of the corruption pipeline
(`eval_robustness.py` lines 110–112). -/
structure SliceCounts where
  n_correct : Nat
  n_false : Nat
  n_reject : Nat
deriving DecidableEq, Repr

/-- Accepted-and-correct test for one `(score vector, target)` sample:
`pred[confidence_idx].eq(target[confidence_idx])`. -/
def catAcceptCorrect (T : List ℚ) (s : List ℚ × Nat) : Bool :=
  isConfident T s.1 && (argmax s.1 == s.2)

/-- Accepted-and-incorrect test:
`pred[confidence_idx] != target[confidence_idx]`. -/
def catAcceptFalse (T : List ℚ) (s : List ℚ × Nat) : Bool :=
  isConfident T s.1 && !(argmax s.1 == s.2)

/-- One batch of the corruption evaluation loop
(`eval_robustness.py` lines 114–127): the three counter increments. -/
def batchCounts (T : List ℚ) (batch : List (List ℚ × Nat)) : SliceCounts where
  n_correct := batch.countP (catAcceptCorrect T)
  n_false := batch.countP (catAcceptFalse T)
  n_reject := batch.countP (fun s => isReject T s.1)

/-- Pointwise sum of counters (`+=` accumulation). -/
def addCounts (a b : SliceCounts) : SliceCounts :=
  ⟨a.n_correct + b.n_correct, a.n_false + b.n_false, a.n_reject + b.n_reject⟩

/-- The inner loop of `inference_rejection` over the batches of one
severity slice (`eval_robustness.py` lines 110–127). -/
def sliceEval (T : List ℚ) (batches : List (List (List ℚ × Nat))) : SliceCounts :=
  batches.foldl (fun acc b => addCounts acc (batchCounts T b)) ⟨0, 0, 0⟩

/-- Final statistics of one severity slice
(`eval_robustness.py` lines 129–134): `acc`, `false_rate`,
`reject_rate`, `acc_remain`, each a Python float division. -/
def sliceRates (c : SliceCounts) (n : Nat) : Except String (ℚ × ℚ × ℚ × ℚ) :=
  match pyDiv c.n_correct n with
  | .error e => .error e
  | .ok acc =>
    match pyDiv c.n_false n with
    | .error e => .error e
    | .ok fr =>
      match pyDiv c.n_reject n with
      | .error e => .error e
      | .ok rr =>
        match pyDiv acc (ratAdd acc fr) with
        | .error e => .error e
        | .ok ar => .ok (acc, fr, rr, ar)

/-! ## Adversarial pipeline (`eval_adv.py`) -/

/-- One test sample of the adversarial run: the clean score vector
`model(x)`, the true label `y`, and the score vector
`model(attack.generate(x))` of its adversarial counterpart (model and
attack are external oracles, spec §6). -/
structure AdvSample where
  clean : List ℚ
  label : Nat
  adv : List ℚ
deriving DecidableEq, Repr

/-- Run counters of `attack_run_rejection_policy`
(`eval_adv.py` lines 85–97). -/
structure AdvCounts where
  n_eval : Nat
  n_successful : Nat
  n_rejected1 : Nat
  n_rejected2 : Nat
deriving DecidableEq, Repr

/-- One batch of the adversarial evaluation loop
(`eval_adv.py` lines 111–137): keep the clean-correctly-classified
samples, count them into `n_eval`, count successful adversarial
examples (`preds != y`), and count `logits < thresholds[preds]` —
note the source computes the two rejection masks over ALL retained
samples, not only over the successful ones. -/
def advBatchEval (T1 T2 : List ℚ) (batch : List AdvSample) : AdvCounts :=
  let retained := batch.filter (fun s => argmax s.clean == s.label)
  { n_eval := retained.length
    n_successful := retained.countP (fun s => !(argmax s.adv == s.label))
    n_rejected1 := retained.countP (fun s => isReject T1 s.adv)
    n_rejected2 := retained.countP (fun s => isReject T2 s.adv) }

/-- The adversarial evaluation loop with its unconditional `break`
(`eval_adv.py` line 139): only the first batch is processed; with no
batch at all, every counter stays 0. -/
def advRun (T1 T2 : List ℚ) (batches : List (List AdvSample)) : AdvCounts :=
  match batches with
  | [] => ⟨0, 0, 0, 0⟩
  | b :: _ => advBatchEval T1 T2 b

/-- Final statistics of the adversarial run
(`eval_adv.py` lines 141–143), in source order: `reject_rate1`,
`reject_rate2`, `success_adv_rate`. -/
def advRates (c : AdvCounts) : Except String (ℚ × ℚ × ℚ) :=
  match pyDiv c.n_rejected1 c.n_successful with
  | .error e => .error e
  | .ok r1 =>
    match pyDiv c.n_rejected2 c.n_successful with
    | .error e => .error e
    | .ok r2 =>
      match pyDiv c.n_successful c.n_eval with
      | .error e => .error e
      | .ok s => .ok (r1, r2, s)

/-! ## Corruption pipeline top level (`eval_robustness.py`) -/

/-- Score vectors the external model assigns to a corruption data
array (the pipeline uses an image only through `sdim(x)`). -/
abbrev CData := List (List ℚ)

/-- A Python object as far as the corruption loop's tuple unpacking
is concerned. -/
inductive PyObj where
  | pstr : String → PyObj
  | pdata : CData → PyObj
  | plabels : List Nat → PyObj
  | ptuple : List PyObj → PyObj

/-- `get_c_dataset` (`eval_robustness.py` lines 29–35): for every
corruption file, yield the 3-tuple
`(file.split('.')[0], np.load(file), y)`. The file contents and the
label array are external inputs. -/
def get_c_dataset (files : List (String × CData)) (y : List Nat) : List PyObj :=
  files.map (fun f => .ptuple [.pstr f.1, .pdata f.2, .plabels y])

/-- Python unpacking of one yielded item against the loop target
`corruption_id, (corruption_type, data, labels)`
(`eval_robustness.py` line 100): the top level must be a 2-sequence,
whose second component must be a 3-sequence. -/
def unpackLoopTarget : PyObj → Except String (PyObj × String × CData × List Nat)
  | .ptuple [a, b] =>
    match b with
    | .ptuple [n, d, y] =>
      match n, d, y with
      | .pstr n, .pdata d, .plabels y => .ok (a, n, d, y)
      | _, _, _ => .error "TypeError: unexpected component types"
    | .ptuple l =>
      .error (if l.length < 3 then "ValueError: not enough values to unpack (expected 3)"
              else "ValueError: too many values to unpack (expected 3)")
    | _ => .error "TypeError: cannot unpack non-sequence"
  | .ptuple l =>
    .error (if l.length < 2 then "ValueError: not enough values to unpack (expected 2)"
            else "ValueError: too many values to unpack (expected 2)")
  | _ => .error "TypeError: cannot unpack non-sequence"

/-- `DataLoader(dataset, batch_size=bs)`: split a sample list into
consecutive batches of size `bs` (Batteries `List.toChunks`). -/
def toBatches (bs : Nat) (l : List (List ℚ × Nat)) : List (List (List ℚ × Nat)) :=
  l.toChunks bs

/-- One `(corruption type, severity)` slice evaluation
(`eval_robustness.py` lines 103–134): take the slice
`data[severity*interval : (severity+1)*interval]` and its labels,
build the `CorruptionDataset` (whose constructor asserts equal
lengths), stream it in batches through the counters, and form the
four rates with `n = len(test_loader.dataset)`. -/
def severityEval (T : List ℚ) (bs interval : Nat) (d : CData) (y : List Nat)
    (s : Nat) : Except String (ℚ × ℚ × ℚ × ℚ) :=
  let xs := (d.drop (s * interval)).take interval
  let ys := (y.drop (s * interval)).take interval
  if xs.length = ys.length then
    sliceRates (sliceEval T (toBatches bs (xs.zip ys))) xs.length
  else .error "AssertionError"

/-- The corruption evaluation top level `inference_rejection`
(`eval_robustness.py` lines 99–140): iterate the yielded corruption
items; each loop iteration first unpacks the item against the target
`corruption_id, (corruption_type, data, labels)`, then runs the five
severity slices and calls `exit(0)`. With no item at all, the
trailing `return acc, reject_rate, acc_remain` reads unbound locals. -/
def inference_rejection (T : List ℚ) (bs interval : Nat) (items : List PyObj) :
    Except String (List (ℚ × ℚ × ℚ × ℚ)) :=
  match items with
  | [] => .error "NameError: name acc is not defined"
  | item :: _ => do
    let (_, _, d, y) ← unpackLoopTarget item
    (List.range 5).mapM (severityEval T bs interval d y)

/-! ## Bridge lemmas: the computational fraction arithmetic above
agrees with the field operations of `ℚ`. -/

theorem ratAdd_eq (a b : ℚ) : ratAdd a b = a + b := by
  have ha : (a.den : ℚ) ≠ 0 := Nat.cast_ne_zero.mpr a.den_nz
  have hb : (b.den : ℚ) ≠ 0 := Nat.cast_ne_zero.mpr b.den_nz
  rw [ratAdd, Rat.divInt_eq_div]
  push_cast
  conv_rhs => rw [← Rat.num_div_den a, ← Rat.num_div_den b, div_add_div _ _ ha hb]
  ring

theorem pyDiv_eq (a b : ℚ) (hb : b ≠ 0) : pyDiv a b = .ok (a / b) := by
  have ha : (a.den : ℚ) ≠ 0 := Nat.cast_ne_zero.mpr a.den_nz
  have hbd : (b.den : ℚ) ≠ 0 := Nat.cast_ne_zero.mpr b.den_nz
  have hbn : (b.num : ℚ) ≠ 0 := Int.cast_ne_zero.mpr (Rat.num_ne_zero.mpr hb)
  rw [pyDiv, if_neg hb]
  congr 1
  rw [Rat.divInt_eq_div]
  push_cast
  rw [div_eq_div_iff (by exact mul_ne_zero ha hbn) hb]
  have na : (a.num : ℚ) = a * a.den := (div_eq_iff ha).mp (Rat.num_div_den a)
  have nb : (b.num : ℚ) = b * b.den := (div_eq_iff hbd).mp (Rat.num_div_den b)
  rw [na, nb]
  ring

theorem pyTruncMulNat_eq_floor (p : ℚ) (n : Nat) (hp : 0 ≤ p) :
    pyTruncMulNat p n = ⌊p * (n : ℚ)⌋ := by
  have hd : (p.den : ℚ) ≠ 0 := Nat.cast_ne_zero.mpr p.den_nz
  have hnum : 0 ≤ p.num := Rat.num_nonneg.mpr hp
  have hprod : p * (n : ℚ) = ((p.num * n : ℤ) : ℚ) / ((p.den : ℕ) : ℚ) := by
    push_cast
    conv_lhs => rw [← Rat.num_div_den p]
    ring
  rw [pyTruncMulNat, hprod, Rat.floor_intCast_div_natCast,
    Int.tdiv_eq_ediv (by positivity) (Int.ofNat_nonneg p.den)]

/-! ## Helper lemmas -/

theorem get_argmax : ∀ (x : ℚ) (xs : List ℚ),
    (x :: xs).get? (argmax (x :: xs)) = some (maxVal (x :: xs))
  | _, [] => by simp [argmax, maxVal]
  | x, y :: t => by
    by_cases h : maxVal (y :: t) ≤ x
    · simp [argmax, maxVal, if_pos h, max_eq_left h]
    · have ih := get_argmax y t
      simp only [argmax, maxVal, if_neg h]
      rw [max_eq_right (le_of_not_le h)]
      simpa using ih

theorem argmax_lt_length : ∀ (x : ℚ) (xs : List ℚ),
    argmax (x :: xs) < (x :: xs).length
  | _, [] => by simp [argmax]
  | x, y :: t => by
    by_cases h : maxVal (y :: t) ≤ x
    · simp [argmax, if_pos h]
    · have ih := argmax_lt_length y t
      simp only [List.length_cons] at ih ⊢
      simp only [argmax, if_neg h]
      omega

theorem pyListIndex_of_nonneg_lt {l : List ℚ} {i : Int} (h0 : 0 ≤ i)
    (hlt : i.toNat < l.length) : pyListIndex l i = .ok (l.get ⟨i.toNat, hlt⟩) := by
  have hneg : ¬ i < 0 := not_lt.mpr h0
  simp only [pyListIndex, if_neg hneg, if_pos h0, List.get?_eq_get hlt]

theorem pyListIndex_ok_elim {l : List ℚ} {i : Int} {v : ℚ} (h0 : 0 ≤ i)
    (h : pyListIndex l i = .ok v) :
    ∃ hj : i.toNat < l.length, l.get ⟨i.toNat, hj⟩ = v := by
  have hneg : ¬ i < 0 := not_lt.mpr h0
  simp only [pyListIndex, if_neg hneg, if_pos h0] at h
  rcases hj : l.get? i.toNat with _ | w
  · rw [hj] at h; exact absurd h (by simp)
  · rw [hj] at h
    have hlt : i.toNat < l.length := (List.get?_eq_some.mp hj).1
    refine ⟨hlt, ?_⟩
    have := List.get?_eq_get hlt
    rw [this] at hj
    have hw : l.get ⟨i.toNat, hlt⟩ = w := by exact Option.some.inj hj
    cases h
    exact hw

theorem sortedScores_sorted (l : List ℚ) : (sortedScores l).Sorted (· ≤ ·) :=
  List.sorted_insertionSort _ l

theorem sortedScores_perm (l : List ℚ) : List.Perm (sortedScores l) l :=
  List.perm_insertionSort _ l

theorem sortedScores_length (l : List ℚ) : (sortedScores l).length = l.length :=
  (sortedScores_perm l).length_eq

theorem sortedScores_eq_of_sorted {l L : List ℚ} (hperm : List.Perm L l)
    (hsort : L.Sorted (· ≤ ·)) : sortedScores l = L :=
  List.eq_of_perm_of_sorted ((sortedScores_perm l).trans hperm.symm)
    (sortedScores_sorted l) hsort

theorem isConfident_eq_not_isReject (T v : List ℚ) :
    isConfident T v = !(isReject T v) := by
  simp only [isConfident, isReject, ← decide_not, decide_eq_decide]
  exact not_lt.symm

theorem batch_accept_split (T : List ℚ) (batch : List (List ℚ × Nat)) :
    batch.countP (catAcceptCorrect T) + batch.countP (catAcceptFalse T)
      = batch.countP (fun s => isConfident T s.1) := by
  induction batch with
  | nil => rfl
  | cons a t ih =>
    by_cases hc : isConfident T a.1 <;> by_cases he : (argmax a.1 == a.2) <;>
      simp [List.countP_cons, catAcceptCorrect, catAcceptFalse, hc, he] <;> omega

theorem batch_conf_reject (T : List ℚ) (batch : List (List ℚ × Nat)) :
    batch.countP (fun s => isConfident T s.1) + batch.countP (fun s => isReject T s.1)
      = batch.length := by
  induction batch with
  | nil => rfl
  | cons a t ih =>
    have hcr := isConfident_eq_not_isReject T a.1
    by_cases hr : isReject T a.1 <;>
      simp [List.countP_cons, hcr, hr] <;> omega

/-- The three batch counters always partition the batch. -/
theorem batchCounts_total (T : List ℚ) (batch : List (List ℚ × Nat)) :
    (batchCounts T batch).n_correct + (batchCounts T batch).n_false
      + (batchCounts T batch).n_reject = batch.length := by
  have h1 := batch_accept_split T batch
  have h2 := batch_conf_reject T batch
  simp only [batchCounts]
  omega

theorem sliceEval_total (T : List ℚ) (batches : List (List (List ℚ × Nat))) :
    ∀ a : SliceCounts,
      ((batches.foldl (fun acc b => addCounts acc (batchCounts T b)) a).n_correct
        + (batches.foldl (fun acc b => addCounts acc (batchCounts T b)) a).n_false
        + (batches.foldl (fun acc b => addCounts acc (batchCounts T b)) a).n_reject)
      = (a.n_correct + a.n_false + a.n_reject) + batches.flatten.length := by
  induction batches with
  | nil => intro a; simp
  | cons b t ih =>
    intro a
    have hb := batchCounts_total T b
    simp only [List.foldl_cons, List.flatten_cons, List.length_append]
    rw [ih]
    simp only [addCounts]
    omega

/-- Inversion of a successful final-statistics computation of the
adversarial run: all three divisions went through, so both
denominators are nonzero and each rate is the corresponding exact
quotient. -/
theorem advRates_ok_elim {c : AdvCounts} {r1 r2 sr : ℚ}
    (h : advRates c = .ok (r1, r2, sr)) :
    c.n_successful ≠ 0 ∧ c.n_eval ≠ 0 ∧
      r1 = (c.n_rejected1 : ℚ) / c.n_successful ∧
      r2 = (c.n_rejected2 : ℚ) / c.n_successful ∧
      sr = (c.n_successful : ℚ) / c.n_eval := by
  by_cases hs : ((c.n_successful : Nat) : ℚ) = 0
  · rw [advRates] at h
    simp [pyDiv, hs] at h
  · by_cases he : ((c.n_eval : Nat) : ℚ) = 0
    · rw [advRates, pyDiv_eq _ _ hs, pyDiv_eq _ _ hs] at h
      simp [pyDiv, he] at h
    · rw [advRates, pyDiv_eq _ _ hs, pyDiv_eq _ _ hs, pyDiv_eq _ _ he] at h
      have h2 := Except.ok.inj h
      refine ⟨fun h0 => hs (by rw [h0]; exact Nat.cast_zero),
        fun h0 => he (by rw [h0]; exact Nat.cast_zero),
        (congrArg (fun p => p.1) h2).symm,
        (congrArg (fun p => p.2.1) h2).symm,
        (congrArg (fun p => p.2.2) h2).symm⟩

/-- Inversion of a single successful Python division. -/
theorem pyDiv_ok_elim {a b v : ℚ} (h : pyDiv a b = .ok v) : b ≠ 0 ∧ v = a / b := by
  by_cases hb : b = 0
  · simp [pyDiv, hb] at h
  · rw [pyDiv_eq _ _ hb] at h
    exact ⟨hb, (Except.ok.inj h).symm⟩

/-! ## Claim theorems -/

/-- Claim C1 (code_bug evaluation). The claim says a sample is counted
as rejected only if it is a successful adversarial example, so that
`n_rejected_adv1 <= n_successful_adv` — as the source's own comments
on `eval_adv.py` lines 87–88 assert. The code instead computes
`rej_idx1 = logits < thresholds1[preds]` over all retained samples
(line 133), without intersecting with `success_idx`. In this run the
single sample is clean-correct, its adversarial counterpart is still
predicted correctly (so it is not a successful adversarial example),
yet its score 5 at the predicted class is below the threshold 10, so
both rejection counters reach 1 while `n_successful_adv = 0`. -/
theorem claim1_rejection_counted_beyond_successful :
    (advRun [10, 10] [10, 10] [[⟨[1, 0], 0, [5, 0]⟩]]).n_successful = 0 ∧
    (advRun [10, 10] [10, 10] [[⟨[1, 0], 0, [5, 0]⟩]]).n_rejected1 = 1 ∧
    (advRun [10, 10] [10, 10] [[⟨[1, 0], 0, [5, 0]⟩]]).n_rejected2 = 1 ∧
    ¬((advRun [10, 10] [10, 10] [[⟨[1, 0], 0, [5, 0]⟩]]).n_rejected1
        ≤ (advRun [10, 10] [10, 10] [[⟨[1, 0], 0, [5, 0]⟩]]).n_successful) := by
  decide

/-- Claim C2 counterexample. The claim says a zero denominator is
reported as undefined/NaN rather than crashing. In Python both
`n_rejected_adv1 / n_successful_adv` with `n_successful_adv == 0`
(spec scenario D: `n_eval = 100`, no successful adversarial example)
and `acc / (acc + false_rate)` with `acc + false_rate == 0` raise
`ZeroDivisionError` — modelled by `Except.error` — so the run crashes
and no NaN is ever produced. -/
theorem claim2_counterexample :
    advRates ⟨100, 0, 0, 0⟩ = .error "ZeroDivisionError: division by zero" ∧
    sliceRates ⟨0, 0, 4⟩ 4 = .error "ZeroDivisionError: division by zero" := by
  decide

/-- Claim C2 (amended): whenever a rate computation has a zero
denominator — `n_successful_adv = 0` in the adversarial pipeline, or
`acc + false_rate = 0` (with a nonempty slice) in the corruption
pipeline — the pipeline raises `ZeroDivisionError` and the run
aborts; the statistic is neither silently reported as zero nor
reported as NaN. -/
theorem claim2_amended_zero_denominator_raises (c : AdvCounts) (d : SliceCounts)
    (n : Nat) (hs : c.n_successful = 0) (hd1 : d.n_correct = 0) (hd2 : d.n_false = 0)
    (hn : n ≠ 0) :
    advRates c = .error "ZeroDivisionError: division by zero" ∧
    sliceRates d n = .error "ZeroDivisionError: division by zero" := by
  constructor
  · have hs' : ((c.n_successful : Nat) : ℚ) = 0 := by rw [hs]; exact Nat.cast_zero
    rw [advRates]
    simp [pyDiv, hs']
  · have hn' : ((n : Nat) : ℚ) ≠ 0 := Nat.cast_ne_zero.mpr hn
    have hc' : ((d.n_correct : Nat) : ℚ) = 0 := by rw [hd1]; exact Nat.cast_zero
    have hf' : ((d.n_false : Nat) : ℚ) = 0 := by rw [hd2]; exact Nat.cast_zero
    rw [sliceRates, pyDiv_eq _ _ hn', pyDiv_eq _ _ hn', pyDiv_eq _ _ hn']
    simp [pyDiv, ratAdd_eq, hc', hf']

/-- Witness for the amended claim C2 at concrete inputs: a run with
`n_eval = 5` and no successful adversarial example, and a slice of 3
samples all rejected. -/
theorem claim2_witness :
    advRates ⟨5, 0, 0, 0⟩ = .error "ZeroDivisionError: division by zero" ∧
    sliceRates ⟨0, 0, 3⟩ 3 = .error "ZeroDivisionError: division by zero" :=
  claim2_amended_zero_denominator_raises ⟨5, 0, 0, 0⟩ ⟨0, 0, 3⟩ 3 rfl rfl rfl
    (by decide)

/-- Claim C6: for every batch passed through the rejection decision,
the accepted-and-correct, accepted-and-incorrect and rejected
categories are pairwise disjoint and their counts sum exactly to the
batch size. -/
theorem claim6_partition_completeness (T : List ℚ) (batch : List (List ℚ × Nat)) :
    ((batchCounts T batch).n_correct + (batchCounts T batch).n_false
      + (batchCounts T batch).n_reject = batch.length) ∧
    (∀ s : List ℚ × Nat, ¬(catAcceptCorrect T s = true ∧ catAcceptFalse T s = true)) ∧
    (∀ s : List ℚ × Nat, ¬(catAcceptCorrect T s = true ∧ isReject T s.1 = true)) ∧
    (∀ s : List ℚ × Nat, ¬(catAcceptFalse T s = true ∧ isReject T s.1 = true)) := by
  refine ⟨batchCounts_total T batch, ?_, ?_, ?_⟩
  · rintro s ⟨h1, h2⟩
    simp only [catAcceptCorrect, Bool.and_eq_true, beq_iff_eq] at h1
    simp only [catAcceptFalse, Bool.and_eq_true, Bool.not_eq_true', beq_eq_false_iff_ne] at h2
    exact h2.2 h1.2
  · rintro s ⟨h1, h2⟩
    simp only [catAcceptCorrect, Bool.and_eq_true] at h1
    rw [isConfident_eq_not_isReject, h2] at h1
    simpa using h1.1
  · rintro s ⟨h1, h2⟩
    simp only [catAcceptFalse, Bool.and_eq_true] at h1
    rw [isConfident_eq_not_isReject, h2] at h1
    simpa using h1.1

/-- Claim C8 (code_bug evaluation). The claim describes the intended
behaviour: the first corruption type's five severity slices are
evaluated and the run then stops (`exit(0)`). The loop header
`for corruption_id, (corruption_type, data, labels) in get_c_dataset():`
is however missing an `enumerate`: `get_c_dataset` yields 3-tuples
`(name, data, labels)`, which cannot be unpacked into the 2-part
target, so Python raises `ValueError: too many values to unpack` on
the very first item and nothing is evaluated. -/
theorem claim8_corruption_loop_valueerror :
    inference_rejection [] 200 10000
        (get_c_dataset [("gaussian_noise", [[1, 0]])] [0])
      = .error "ValueError: too many values to unpack (expected 2)" := rfl

/-- Claim C10: for every slice evaluation of the corruption pipeline,
the accumulated counters satisfy
`n_correct + n_false + n_reject = n` where `n` is the number of
samples streamed, and therefore the derived rates (the code's `acc`,
`false_rate`, `reject_rate`, each a Python division by `n`) sum to 1. -/
theorem claim10_slice_partition_rates (T : List ℚ)
    (batches : List (List (List ℚ × Nat))) (acc fr rr : ℚ)
    (hacc : pyDiv ((sliceEval T batches).n_correct : ℚ)
      (batches.flatten.length : ℚ) = .ok acc)
    (hfr : pyDiv ((sliceEval T batches).n_false : ℚ)
      (batches.flatten.length : ℚ) = .ok fr)
    (hrr : pyDiv ((sliceEval T batches).n_reject : ℚ)
      (batches.flatten.length : ℚ) = .ok rr) :
    (sliceEval T batches).n_correct + (sliceEval T batches).n_false
      + (sliceEval T batches).n_reject = batches.flatten.length ∧
    acc + fr + rr = 1 := by
  obtain ⟨hn, ha⟩ := pyDiv_ok_elim hacc
  obtain ⟨-, hb⟩ := pyDiv_ok_elim hfr
  obtain ⟨-, hc⟩ := pyDiv_ok_elim hrr
  have htot : (sliceEval T batches).n_correct + (sliceEval T batches).n_false
      + (sliceEval T batches).n_reject = batches.flatten.length := by
    have := sliceEval_total T batches ⟨0, 0, 0⟩
    simpa [sliceEval] using this
  refine ⟨htot, ?_⟩
  rw [ha, hb, hc, div_add_div_same, div_add_div_same]
  rw [show ((sliceEval T batches).n_correct : ℚ) + (sliceEval T batches).n_false
      + (sliceEval T batches).n_reject
      = (((sliceEval T batches).n_correct + (sliceEval T batches).n_false
        + (sliceEval T batches).n_reject : Nat) : ℚ) by push_cast; ring]
  rw [htot]
  exact div_self hn

/-- Witness for claim C10: two singleton batches, one accepted-correct
and one accepted-incorrect sample; `acc = fr = 1/2`, `rr = 0`, and
the rates sum to 1. -/
theorem claim10_witness :
    (sliceEval [0, 0] [[([1, 0], 0)], [([0, 1], 0)]]).n_correct
        + (sliceEval [0, 0] [[([1, 0], 0)], [([0, 1], 0)]]).n_false
        + (sliceEval [0, 0] [[([1, 0], 0)], [([0, 1], 0)]]).n_reject
      = ([[([1, 0], 0)], [([0, 1], 0)]] : List (List (List ℚ × Nat))).flatten.length ∧
    mkRat 1 2 + mkRat 1 2 + 0 = 1 :=
  claim10_slice_partition_rates [0, 0] [[([1, 0], 0)], [([0, 1], 0)]]
    (mkRat 1 2) (mkRat 1 2) 0 (by decide) (by decide) (by decide)

/-- Claim C3 counterexample. The claim says the calibration index is
clamped to `[0, |S_c|-1]` so that even an empty score collection does
not raise. The code performs no clamp: on an empty collection,
`sorted(in_ll_list)[0]` raises `IndexError`. -/
theorem claim3_counterexample :
    calibrate (mkRat 1 100) [] = .error "IndexError: list index out of range" := by
  decide

/-- Claim C3 (amended): for a nonempty score collection and a
percentile `p` with `0 ≤ p < 1`, the index `⌊p * |S_c|⌋` is already
inside `[0, |S_c|-1]` — no clamping is present in the code and none
is needed — so calibration does not raise; and when `p * |S_c| < 1`
the index is 0 and the smallest observed score becomes the
threshold. When the collection is empty the code raises `IndexError`
(see the counterexample). -/
theorem claim3_amended_no_clamp_needed (p : ℚ) (l : List ℚ) (hne : l ≠ [])
    (hp0 : 0 ≤ p) (hp1 : p < 1) :
    (∃ t, calibrate p l = .ok t) ∧
    (p * (l.length : ℚ) < 1 →
      ∃ t, calibrate p l = .ok t ∧ t ∈ l ∧ ∀ x ∈ l, t ≤ x) := by
  have hlen : 0 < l.length := List.length_pos.mpr hne
  have hidx := pyTruncMulNat_eq_floor p l.length hp0
  have hi0 : 0 ≤ pyTruncMulNat p l.length := by
    rw [hidx]; exact Int.floor_nonneg.mpr (by positivity)
  have hiN : pyTruncMulNat p l.length < (l.length : ℤ) := by
    rw [hidx]
    refine Int.floor_lt.mpr ?_
    calc p * (l.length : ℚ) < 1 * (l.length : ℚ) :=
          mul_lt_mul_of_pos_right hp1 (by exact_mod_cast hlen)
    _ = ((l.length : ℤ) : ℚ) := by push_cast; ring
  have hiT : (pyTruncMulNat p l.length).toNat < (sortedScores l).length := by
    rw [sortedScores_length]; omega
  have hok : calibrate p l
      = .ok ((sortedScores l).get ⟨(pyTruncMulNat p l.length).toNat, hiT⟩) :=
    pyListIndex_of_nonneg_lt hi0 hiT
  refine ⟨⟨_, hok⟩, ?_⟩
  intro hsmall
  have hzero : (pyTruncMulNat p l.length).toNat = 0 := by
    have : pyTruncMulNat p l.length = 0 := by
      rw [hidx, Int.floor_eq_zero_iff]
      exact ⟨by positivity, hsmall⟩
    omega
  refine ⟨(sortedScores l).get ⟨(pyTruncMulNat p l.length).toNat, hiT⟩, hok, ?_, ?_⟩
  · exact (sortedScores_perm l).subset (List.get_mem _ _ hiT)
  · intro x hx
    obtain ⟨j, hj⟩ := List.mem_iff_get.mp ((sortedScores_perm l).mem_iff.mpr hx)
    rw [← hj]
    exact (sortedScores_sorted l).rel_get_of_le
      (Fin.mk_le_mk.mpr (by omega))

/-- Witness for the amended claim C3: percentile 0 on the two-score
collection `[5, 3]`; the product `0 * 2 < 1`, the index is 0, and
the smallest score 3 becomes the threshold. -/
theorem claim3_witness :
    (∃ t, calibrate 0 [5, 3] = .ok t) ∧
    ((0 : ℚ) * (([5, 3] : List ℚ).length : ℚ) < 1 →
      ∃ t, calibrate 0 [5, 3] = .ok t ∧ t ∈ ([5, 3] : List ℚ) ∧
        ∀ x ∈ ([5, 3] : List ℚ), t ≤ x) :=
  claim3_amended_no_clamp_needed 0 [5, 3] (by decide) (by decide) (by decide)

/-- Claim C5: in every rejection decision, a sample is rejected iff
its score at the predicted class is strictly less than the threshold
at the predicted class; a sample whose score at the predicted class
exactly equals that threshold is accepted (confident), not
rejected. -/
theorem claim5_strict_threshold_boundary (T v : List ℚ) (hv : v ≠ [])
    (hT : argmax v < T.length) :
    (isReject T v = true ↔
      ∃ s, v.get? (argmax v) = some s ∧ s < T.getD (argmax v) 0) ∧
    (v.get? (argmax v) = some (T.getD (argmax v) 0) →
      isReject T v = false ∧ isConfident T v = true) := by
  obtain ⟨x, xs, rfl⟩ := List.exists_cons_of_ne_nil hv
  have hga := get_argmax x xs
  constructor
  · constructor
    · intro hr
      exact ⟨maxVal (x :: xs), hga, by simpa [isReject] using hr⟩
    · rintro ⟨s, hs, hlt⟩
      have hsm : maxVal (x :: xs) = s := Option.some.inj (hga.symm.trans hs)
      rw [← hsm] at hlt
      simpa [isReject] using hlt
  · intro heq
    have hsm : maxVal (x :: xs) = T.getD (argmax (x :: xs)) 0 :=
      Option.some.inj (hga.symm.trans heq)
    constructor
    · simp [isReject, hsm]
    · simp [isConfident, hsm]

/-- Witness for claim C5, on the boundary case: score vector `[3, 7]`
(predicted class 1 with score 7) against thresholds `[0, 7]` — the
score equals the threshold, so the sample is accepted, not
rejected. -/
theorem claim5_witness :
    isReject [0, 7] [3, 7] = false ∧ isConfident [0, 7] [3, 7] = true :=
  (claim5_strict_threshold_boundary [0, 7] [3, 7] (by decide) (by decide)).2
    (by decide)

/-- Claim C7: for a fixed score collection, the calibrated threshold
is monotone in the percentile: if `0 ≤ p1 ≤ p2` and both calibrations
return (their indices are in range), the first threshold is at most
the second. -/
theorem claim7_threshold_monotonicity (p1 p2 : ℚ) (l : List ℚ) (t1 t2 : ℚ)
    (hp0 : 0 ≤ p1) (hp : p1 ≤ p2)
    (h1 : calibrate p1 l = .ok t1) (h2 : calibrate p2 l = .ok t2) :
    t1 ≤ t2 := by
  have hp0' : 0 ≤ p2 := le_trans hp0 hp
  have e1 := pyTruncMulNat_eq_floor p1 l.length hp0
  have e2 := pyTruncMulNat_eq_floor p2 l.length hp0'
  have hi10 : 0 ≤ pyTruncMulNat p1 l.length := by
    rw [e1]; exact Int.floor_nonneg.mpr (by positivity)
  have hi20 : 0 ≤ pyTruncMulNat p2 l.length := by
    rw [e2]; exact Int.floor_nonneg.mpr (by positivity)
  rw [calibrate] at h1 h2
  obtain ⟨hj1, hg1⟩ := pyListIndex_ok_elim hi10 h1
  obtain ⟨hj2, hg2⟩ := pyListIndex_ok_elim hi20 h2
  have hle : pyTruncMulNat p1 l.length ≤ pyTruncMulNat p2 l.length := by
    rw [e1, e2]
    exact Int.floor_le_floor (mul_le_mul_of_nonneg_right hp (Nat.cast_nonneg _))
  have hleN : (pyTruncMulNat p1 l.length).toNat ≤ (pyTruncMulNat p2 l.length).toNat :=
    Int.toNat_le_toNat hle
  rw [← hg1, ← hg2]
  exact (sortedScores_sorted l).rel_get_of_le (Fin.mk_le_mk.mpr hleN)

/-- Witness for claim C7: percentiles 1/10 and 3/10 on a ten-score
collection give thresholds 2 and 4 respectively, and 2 ≤ 4. -/
theorem claim7_witness :
    calibrate (mkRat 1 10) [3, 1, 2, 5, 4, 6, 7, 9, 8, 10] = .ok 2 ∧
    calibrate (mkRat 3 10) [3, 1, 2, 5, 4, 6, 7, 9, 8, 10] = .ok 4 ∧
    (2 : ℚ) ≤ 4 :=
  ⟨by decide, by decide,
    claim7_threshold_monotonicity (mkRat 1 10) (mkRat 3 10)
      [3, 1, 2, 5, 4, 6, 7, 9, 8, 10] 2 4
      (by decide) (by decide) (by decide) (by decide)⟩

theorem countP_ext {α : Type} (p q : α → Bool) (l : List α) (h : ∀ a, p a = q a) :
    l.countP p = l.countP q := by
  induction l with
  | nil => rfl
  | cons a t ih => simp [List.countP_cons, h a, ih]

/-- The collected score list of one class holds exactly the
class-`c` scores of the correctly classified score vectors. -/
theorem mem_classScores {c : Nat} {vecs : List (List ℚ)} {x : ℚ}
    (hlen : ∀ v ∈ vecs, c < v.length) :
    x ∈ classScores c vecs ↔ ∃ v ∈ vecs, argmax v = c ∧ v.get? c = some x := by
  simp only [classScores, List.mem_map, List.mem_filter, beq_iff_eq]
  constructor
  · rintro ⟨v, ⟨hv, ha⟩, rfl⟩
    have hc := hlen v hv
    exact ⟨v, hv, ha, by rw [List.get?_eq_get hc, List.getD_eq_get v 0 hc]⟩
  · rintro ⟨v, hv, ha, hx⟩
    have hc := hlen v hv
    refine ⟨v, ⟨hv, ha⟩, ?_⟩
    rw [List.get?_eq_get hc] at hx
    rw [List.getD_eq_get v 0 hc]
    exact Option.some.inj hx

/-- Claim C4: for a class `c` whose collected score list is nonempty,
the calibrated threshold is the `k`-th element (0-indexed) of the
ascending sorted order of the collected scores, with
`k = ⌊percentile * |S_c|⌋`; and the collected scores are exactly the
scores at index `c` of the correctly classified vectors
(`argmax = c`, the true label of every vector the per-class dataset
provider yields). `L` is any sorted enumeration of the collection —
it is unique, so this pins the threshold down completely. -/
theorem claim4_threshold_functional_correctness (p : ℚ) (c : Nat)
    (vecs : List (List ℚ)) (L : List ℚ)
    (hp0 : 0 ≤ p) (hp1 : p < 1)
    (hlen : ∀ v ∈ vecs, c < v.length)
    (hne : classScores c vecs ≠ [])
    (hperm : List.Perm L (classScores c vecs))
    (hsort : L.Sorted (· ≤ ·)) :
    (∀ x : ℚ, x ∈ classScores c vecs ↔
      ∃ v ∈ vecs, argmax v = c ∧ v.get? c = some x) ∧
    ∃ hk : (⌊p * ((classScores c vecs).length : ℚ)⌋).toNat < L.length,
      classThreshold p c vecs
        = .ok (L.get ⟨(⌊p * ((classScores c vecs).length : ℚ)⌋).toNat, hk⟩) := by
  have hSsort : sortedScores (classScores c vecs) = L :=
    sortedScores_eq_of_sorted hperm hsort
  subst hSsort
  refine ⟨fun x => mem_classScores hlen, ?_⟩
  have hlenS : 0 < (classScores c vecs).length := List.length_pos.mpr hne
  have hidx := pyTruncMulNat_eq_floor p (classScores c vecs).length hp0
  have hi0 : 0 ≤ pyTruncMulNat p (classScores c vecs).length := by
    rw [hidx]; exact Int.floor_nonneg.mpr (by positivity)
  have hiN : pyTruncMulNat p (classScores c vecs).length
      < ((classScores c vecs).length : ℤ) := by
    rw [hidx]
    refine Int.floor_lt.mpr ?_
    calc p * ((classScores c vecs).length : ℚ)
        < 1 * ((classScores c vecs).length : ℚ) :=
          mul_lt_mul_of_pos_right hp1 (by exact_mod_cast hlenS)
    _ = (((classScores c vecs).length : ℤ) : ℚ) := by push_cast; ring
  have hiT : (pyTruncMulNat p (classScores c vecs).length).toNat
      < (sortedScores (classScores c vecs)).length := by
    rw [sortedScores_length]; omega
  have hk : (⌊p * ((classScores c vecs).length : ℚ)⌋).toNat
      < (sortedScores (classScores c vecs)).length := by rw [← hidx]; exact hiT
  refine ⟨hk, ?_⟩
  have hok := pyListIndex_of_nonneg_lt hi0 hiT
  rw [classThreshold, calibrate, hok]
  have hEq : (⟨(pyTruncMulNat p (classScores c vecs).length).toNat, hiT⟩
        : Fin (sortedScores (classScores c vecs)).length)
      = ⟨(⌊p * ((classScores c vecs).length : ℚ)⌋).toNat, hk⟩ :=
    Fin.mk_eq_mk.mpr (by omega)
  rw [hEq]

/-- Witness for claim C4 (spec scenario A with integer scores): ten
one-class vectors with scores 1..10, percentile 1/10; the collected
scores are 1..10, `k = ⌊1⌋ = 1`, and the threshold is the second
smallest score 2. -/
theorem claim4_witness :
    classThreshold (mkRat 1 10) 0
        [[1], [2], [3], [4], [5], [6], [7], [8], [9], [10]] = .ok 2 ∧
    (∀ x : ℚ, x ∈ classScores 0 [[1], [2], [3], [4], [5], [6], [7], [8], [9], [10]] ↔
      ∃ v ∈ [[1], [2], [3], [4], [5], [6], [7], [8], [9], ([10] : List ℚ)],
        argmax v = 0 ∧ v.get? 0 = some x) :=
  ⟨by decide,
    (claim4_threshold_functional_correctness (mkRat 1 10) 0
      [[1], [2], [3], [4], [5], [6], [7], [8], [9], [10]]
      [1, 2, 3, 4, 5, 6, 7, 8, 9, 10]
      (by decide) (by decide) (by decide) (by decide) (by decide) (by decide)).1⟩

/-- Claim C9: in the adversarial batch evaluation, only
clean-correctly-classified samples are retained and counted into
`n_eval`; a retained sample is a successful adversarial example iff
the prediction on its adversarial counterpart differs from the true
label; `n_successful <= n_eval`; and when the final statistics
computation returns, `success_adv_rate = n_successful / n_eval`. -/
theorem claim9_adv_pipeline_accounting (T1 T2 : List ℚ) (batch : List AdvSample)
    (r1 r2 sr : ℚ)
    (hr : advRates (advBatchEval T1 T2 batch) = .ok (r1, r2, sr)) :
    (advBatchEval T1 T2 batch).n_eval
        = batch.countP (fun s => argmax s.clean == s.label) ∧
    (advBatchEval T1 T2 batch).n_successful
        = batch.countP
            (fun s => (argmax s.clean == s.label) && !(argmax s.adv == s.label)) ∧
    (advBatchEval T1 T2 batch).n_successful ≤ (advBatchEval T1 T2 batch).n_eval ∧
    sr = ((advBatchEval T1 T2 batch).n_successful : ℚ)
        / ((advBatchEval T1 T2 batch).n_eval : ℚ) := by
  obtain ⟨-, -, -, -, hsr⟩ := advRates_ok_elim hr
  refine ⟨?_, ?_, ?_, hsr⟩
  · simp [advBatchEval, List.countP_eq_length_filter]
  · simp only [advBatchEval]
    rw [List.countP_filter]
    exact countP_ext _ _ batch (fun a => Bool.and_comm _ _)
  · simp only [advBatchEval]
    exact (List.countP_le_length _).trans (le_of_eq (by simp))

/-- Witness for claim C9: one sample, clean scores `[1,0]` (correctly
classified as 0), adversarial scores `[0,1]` (predicted 1 ≠ 0, a
successful adversarial example, not rejected at thresholds `[0,0]`);
the run evaluates to `n_eval = n_successful = 1` and rates
`(0, 0, 1)`. -/
theorem claim9_witness :
    advRates (advBatchEval [0, 0] [0, 0] [⟨[1, 0], 0, [0, 1]⟩]) = .ok (0, 0, 1) ∧
    ((advBatchEval [0, 0] [0, 0] [⟨[1, 0], 0, [0, 1]⟩]).n_eval
        = List.countP (fun s => argmax s.clean == s.label)
            ([⟨[1, 0], 0, [0, 1]⟩] : List AdvSample) ∧
      (advBatchEval [0, 0] [0, 0] [⟨[1, 0], 0, [0, 1]⟩]).n_successful
        = List.countP
            (fun s => (argmax s.clean == s.label) && !(argmax s.adv == s.label))
            ([⟨[1, 0], 0, [0, 1]⟩] : List AdvSample) ∧
      (advBatchEval [0, 0] [0, 0] [⟨[1, 0], 0, [0, 1]⟩]).n_successful
        ≤ (advBatchEval [0, 0] [0, 0] [⟨[1, 0], 0, [0, 1]⟩]).n_eval ∧
      (1 : ℚ) = ((advBatchEval [0, 0] [0, 0] [⟨[1, 0], 0, [0, 1]⟩]).n_successful : ℚ)
        / ((advBatchEval [0, 0] [0, 0] [⟨[1, 0], 0, [0, 1]⟩]).n_eval : ℚ)) :=
  ⟨by decide,
    claim9_adv_pipeline_accounting [0, 0] [0, 0] [⟨[1, 0], 0, [0, 1]⟩] 0 0 1
      (by decide)⟩

end SDIM
